/-
  Verification of the module-matrix rendering engine of `qr_app.py`.

  The definitions below are a shallow embedding of the rendering code:
  the SVG plan builders (`create_svg_elegant`, `create_svg_classic`) become
  functions from a boolean matrix to a list of drawing primitives with
  rational coordinates, and the raster helpers (`CircleAllModuleDrawer.drawrect`,
  `draw_circular_position_marker`, `replace_position_markers`) become functions
  emitting lists of PIL draw operations.
-/
import Mathlib

set_option maxHeartbeats 1000000

/-- A QR module matrix: a grid of booleans indexed `[row][col]`. -/
abbrev QRMatrix := List (List Bool)

/-- Matrix lookup `matrix[row][col]` with the out-of-range default `false`
    (the Python code only indexes in range). -/
def cell (m : QRMatrix) (row col : ℕ) : Bool := (m.getD row []).getD col false

/-- Number of true cells of the matrix (summed row by row). -/
def trueCount (m : QRMatrix) : ℕ := (m.map (fun r => r.countP (fun b => b))).sum

/-- An SVG drawing primitive, as emitted by `create_svg_elegant` /
    `create_svg_classic`: a `<circle cx cy r fill>` or a `<rect x y w h fill>`. -/
inductive Prim where
  | circle (cx cy r : ℚ) (fill : String)
  | rect (x y w h : ℚ) (fill : String)
deriving DecidableEq, Repr

def Prim.isCircle : Prim → Bool
  | .circle _ _ _ _ => true
  | .rect _ _ _ _ _ => false

def Prim.isRect : Prim → Bool
  | .circle _ _ _ _ => false
  | .rect _ _ _ _ _ => true

/-- Bounding box `(xmin, ymin, xmax, ymax)` of a primitive. -/
def Prim.bbox : Prim → ℚ × ℚ × ℚ × ℚ
  | .circle cx cy r _ => (cx - r, cy - r, cx + r, cy + r)
  | .rect x y w h _ => (x, y, x + w, y + h)

/-- Module pitch `module_size = size / (module_count + 2 * border)` with
    `size = 1000` and `border = 4` (both SVG paths). -/
def msize (s : ℕ) : ℚ := 1000 / ((s : ℚ) + 2 * 4)

/-- Quiet-zone offset `offset = border * module_size` with `border = 4`. -/
def svgOffset (s : ℕ) : ℚ := 4 * msize s

/-- Data-dot radius `radius = module_size * 0.42` of the elegant SVG path. -/
def svgDotRadius (p : ℚ) : ℚ := p * (42 / 100)

/-- The background `<rect width="1000" height="1000" fill="white"/>`
    emitted first by both SVG paths. -/
def bgRect : Prim := .rect 0 0 1000 1000 "white"

/-- The nested `for row ... for col ...` loop shared by both SVG paths:
    one primitive `f row col` per true cell, in row-major order. -/
def gridEmit (m : QRMatrix) (f : ℕ → ℕ → Prim) : List Prim :=
  (List.range m.length).flatMap fun row =>
    (List.range m.length).flatMap fun col =>
      if cell m row col then [f row col] else []

/-- The data circles of `create_svg_elegant` (lines 273-278): one black circle
    per true cell, centered at the module center, radius `module_size * 0.42`. -/
def svgDataCircles (m : QRMatrix) : List Prim :=
  let p := msize m.length
  let off := svgOffset m.length
  gridEmit m fun row col =>
    .circle (off + col * p + p / 2) (off + row * p + p / 2) (svgDotRadius p) "black"

/-- The three white covering rectangles of `create_svg_elegant` (lines 280-292):
    `8 * module_size` squares over the three finder corners. -/
def svgCoverRects (m : QRMatrix) : List Prim :=
  let p := msize m.length
  let off := svgOffset m.length
  let clear := 8 * p
  let far := off + ((m.length : ℚ) - 8) * p
  [ .rect off off clear clear "white",
    .rect far off clear clear "white",
    .rect off far clear clear "white" ]

/-- One circular position marker of the SVG path: three concentric circles of
    radii `3.5/2.5/1.5 * module_size` in black/white/black, centered at
    `(cx, cy)`. -/
def ringTriple (cx cy p : ℚ) : List Prim :=
  [ .circle cx cy (3.5 * p) "black",
    .circle cx cy (2.5 * p) "white",
    .circle cx cy (1.5 * p) "black" ]

/-- The nine finder-ring circles of `create_svg_elegant` (lines 294-314):
    top-left, top-right, bottom-left, each a black/white/black triple centered
    at corner offset plus `3.5 * module_size` in each axis. -/
def svgElegantRings (m : QRMatrix) : List Prim :=
  let p := msize m.length
  let off := svgOffset m.length
  let far := off + ((m.length : ℚ) - 7) * p
  ringTriple (off + 3.5 * p) (off + 3.5 * p) p ++
    ringTriple (far + 3.5 * p) (off + 3.5 * p) p ++
    ringTriple (off + 3.5 * p) (far + 3.5 * p) p

/-- The full plan of `create_svg_elegant`: background, then ALL data modules as
    circles, then the three 8x8 white covering rectangles, then the nine
    finder-ring circles. -/
def svgElegantPlan (m : QRMatrix) : List Prim :=
  bgRect :: (svgDataCircles m ++ (svgCoverRects m ++ svgElegantRings m))

/-- The full plan of `create_svg_classic` (lines 344-357): background, then one
    black `module_size`-square rectangle per true cell at
    `(offset + col * module_size, offset + row * module_size)`. -/
def svgClassicPlan (m : QRMatrix) : List Prim :=
  let p := msize m.length
  let off := svgOffset m.length
  bgRect :: gridEmit m fun row col =>
    .rect (off + col * p) (off + row * p) p p "black"

/-- The SVG document header data: both SVG paths write
    `width="{size}" height="{size}" viewBox="0 0 {size} {size}"` with
    `size = 1000`. -/
structure SvgDoc where
  width : ℕ
  height : ℕ
  viewBoxW : ℕ
  viewBoxH : ℕ
  body : List Prim
deriving Repr

def svgElegantDoc (m : QRMatrix) : SvgDoc :=
  { width := 1000, height := 1000, viewBoxW := 1000, viewBoxH := 1000,
    body := svgElegantPlan m }

def svgClassicDoc (m : QRMatrix) : SvgDoc :=
  { width := 1000, height := 1000, viewBoxW := 1000, viewBoxH := 1000,
    body := svgClassicPlan m }

/- ### Raster path -/

/-- A PIL `ImageDraw` operation: `draw.rectangle([x0,y0,x1,y1], fill)` or
    `draw.ellipse([x0,y0,x1,y1], fill)`. -/
inductive PilOp where
  | rectangle (x0 y0 x1 y1 : ℚ) (fill : String)
  | ellipse (x0 y0 x1 y1 : ℚ) (fill : String)
deriving DecidableEq, Repr

/-- Embedding of `CircleAllModuleDrawer.drawrect` (lines 115-130): for an active module with
    box corners `(x, y)`-`(x2, y2)`, draw an ellipse of radius
    `0.85 * (size / 2)` about the box center in the paint color. -/
def drawrect (paint : String) (x y x2 y2 : ℚ) (is_active : Bool) : List PilOp :=
  if !is_active then []
  else
    let size := x2 - x
    let radius := size / 2
    let center_x := x + radius
    let center_y := y + radius
    let circle_radius := radius * 0.85
    [ .ellipse (center_x - circle_radius) (center_y - circle_radius)
        (center_x + circle_radius) (center_y + circle_radius) paint ]

/-- Embedding of `draw_circular_position_marker` (lines 132-159): three concentric ellipses
    of radii `3.5/2.5/1.5 * module_size` in black/white/black, centered at
    `(x + 3.5 * module_size, y + 3.5 * module_size)`. -/
def draw_circular_position_marker (x y module_size : ℚ) : List PilOp :=
  let center_x := x + 3.5 * module_size
  let center_y := y + 3.5 * module_size
  let outer_r := 3.5 * module_size
  let middle_r := 2.5 * module_size
  let inner_r := 1.5 * module_size
  [ .ellipse (center_x - outer_r) (center_y - outer_r)
      (center_x + outer_r) (center_y + outer_r) "black",
    .ellipse (center_x - middle_r) (center_y - middle_r)
      (center_x + middle_r) (center_y + middle_r) "white",
    .ellipse (center_x - inner_r) (center_y - inner_r)
      (center_x + inner_r) (center_y + inner_r) "black" ]

/-- Value `offset = border * box_size` of `replace_position_markers`. -/
def rpmOffset (box_size border : ℤ) : ℤ := border * box_size

/-- Value `qr_size = (img_size - 2 * offset) // module_size` of
    `replace_position_markers` (Python floor division). -/
def rpmQrSize (img_size box_size border : ℤ) : ℤ :=
  Int.fdiv (img_size - 2 * rpmOffset box_size border) box_size

/-- Value `top_right_x = offset + (qr_size - 7) * module_size`
    (also `bottom_left_y`, computed identically). -/
def rpmTopRightX (img_size box_size border : ℤ) : ℤ :=
  rpmOffset box_size border + (rpmQrSize img_size box_size border - 7) * box_size

/-- Embedding of `replace_position_markers` (lines 161-184): clears the three position
    marker areas with white rectangles of side `7 * module_size`, then draws
    the three circular markers. -/
def replace_position_markers (img_size box_size border : ℤ) : List PilOp :=
  let module_size : ℤ := box_size
  let offset := rpmOffset box_size border
  let marker_size := 7 * module_size
  let top_right_x := rpmTopRightX img_size box_size border
  let bottom_left_y := rpmTopRightX img_size box_size border
  [ .rectangle offset offset (offset + marker_size) (offset + marker_size) "white",
    .rectangle top_right_x offset (top_right_x + marker_size) (offset + marker_size) "white",
    .rectangle offset bottom_left_y (offset + marker_size) (bottom_left_y + marker_size) "white" ]
  ++ draw_circular_position_marker offset offset module_size
  ++ draw_circular_position_marker top_right_x offset module_size
  ++ draw_circular_position_marker offset bottom_left_y module_size

/-- A PIL image, tracked at the level of its pixel dimensions. -/
structure PilImage where
  width : ℕ
  height : ℕ
deriving DecidableEq, Repr

/-- Models the PIL `Image.resize` contract (external library call at lines 214
    and 237): the result has exactly the requested dimensions. -/
def pilResize (_img : PilImage) (w h : ℕ) : PilImage := ⟨w, h⟩

/-- Models the `qrcode` library's `make_image` canvas: a square of
    `(module_count + 2 * border) * box_size` pixels per side (native density,
    as in the spec scenario `(21 + 8) * 40 = 1160`). -/
def qrNativeImage (module_count box_size border : ℕ) : PilImage :=
  ⟨(module_count + 2 * border) * box_size, (module_count + 2 * border) * box_size⟩

/-- The raster pipeline of `create_qr_code_elegant` (lines 190-216) at the
    level of image dimensions: native render with `box_size = 40`,
    `border = 4`, then `img.resize((1000, 1000))`. -/
def create_qr_code_elegant_image (module_count : ℕ) : PilImage :=
  pilResize (qrNativeImage module_count 40 4) 1000 1000

/-- The raster pipeline of `create_qr_code_classic` (lines 218-239) at the
    level of image dimensions: native render with `box_size = 40`,
    `border = 4`, then `img.resize((1000, 1000))`. -/
def create_qr_code_classic_image (module_count : ℕ) : PilImage :=
  pilResize (qrNativeImage module_count 40 4) 1000 1000

/- ### URL normalization -/

/-- Python's `str.isspace()` character set, exactly the characters the
    default `str.strip()` removes: U+0009-U+000D (tab, LF, VT, FF, CR),
    U+001C-U+001F (file/group/record/unit separators), U+0020 (space),
    U+0085 (NEL), U+00A0 (no-break space), U+1680 (Ogham space mark),
    U+2000-U+200A (typographic spaces), U+2028 (line separator),
    U+2029 (paragraph separator), U+202F (narrow no-break space),
    U+205F (medium mathematical space) and U+3000 (ideographic space). -/
def isPySpace (c : Char) : Bool :=
  (0x09 ≤ c.toNat && c.toNat ≤ 0x0d) ||
    (0x1c ≤ c.toNat && c.toNat ≤ 0x1f) ||
    c.toNat = 0x20 || c.toNat = 0x85 || c.toNat = 0xa0 ||
    c.toNat = 0x1680 ||
    (0x2000 ≤ c.toNat && c.toNat ≤ 0x200a) ||
    c.toNat = 0x2028 || c.toNat = 0x2029 || c.toNat = 0x202f ||
    c.toNat = 0x205f || c.toNat = 0x3000

/-- Python `str.strip()`: drop leading and trailing whitespace characters. -/
def pyStrip (l : List Char) : List Char :=
  ((l.dropWhile isPySpace).reverse.dropWhile isPySpace).reverse

/-- Embedding of `normalize_url` (lines 186-188): `return url.strip()`. -/
def normalize_url (url : String) : String := String.mk (pyStrip url.data)

/-- The text actually encoded by `create_qr_code_elegant` (line 195). -/
def elegantPngText (url : String) : String := normalize_url url

/-- The text actually encoded by `create_qr_code_classic` (line 223). -/
def classicPngText (url : String) : String := normalize_url url

/-- The text actually encoded by `create_svg_elegant` (line 247). -/
def elegantSvgText (url : String) : String := normalize_url url

/-- The text actually encoded by `create_svg_classic` (line 326). -/
def classicSvgText (url : String) : String := normalize_url url

/- ### Concrete matrices used as test inputs -/

/-- A 1x1 matrix with a single true cell. -/
def M1 : QRMatrix := [[true]]

/-- A 21x21 matrix whose only true cell is `(0,0)`, inside the top-left
    finder region. -/
def M21 : QRMatrix :=
  (true :: List.replicate 20 false) :: List.replicate 20 (List.replicate 21 false)

/-- An all-false 21x21 matrix. -/
def M21e : QRMatrix := List.replicate 21 (List.replicate 21 false)

/-- An all-false 7x7 matrix. -/
def M7 : QRMatrix := List.replicate 7 (List.replicate 7 false)

/- ### Helper lemmas: counting grid emissions -/

lemma countP_range_getD (l : List Bool) :
    ((List.range l.length).map (fun i => ((if l.getD i false then 1 else 0) : ℕ))).sum
      = l.countP (fun b => b) := by
  induction l with
  | nil => simp
  | cons a t ih =>
    rw [List.length_cons, List.range_succ_eq_map, List.map_cons, List.map_map]
    simp only [Function.comp_def, List.getD_cons_succ, List.getD_cons_zero,
      List.sum_cons, List.countP_cons, ih]
    omega

lemma sum_map_range_getD {α : Type} (g : α → ℕ) (d : α) (l : List α) :
    ((List.range l.length).map (fun i => g (l.getD i d))).sum = (l.map g).sum := by
  induction l with
  | nil => simp
  | cons a t ih =>
    rw [List.length_cons, List.range_succ_eq_map, List.map_cons, List.map_map]
    simp only [Function.comp_def, List.getD_cons_succ, List.getD_cons_zero,
      List.sum_cons, ih, List.map_cons]

lemma gridEmit_length (m : QRMatrix) (f : ℕ → ℕ → Prim)
    (hsq : ∀ r ∈ m, r.length = m.length) :
    (gridEmit m f).length = trueCount m := by
  unfold gridEmit
  rw [List.length_flatMap]
  have hinner : ∀ row < m.length,
      (((List.range m.length).flatMap fun col =>
        if cell m row col then [f row col] else []).length)
        = (m.getD row []).countP (fun b => b) := by
    intro row hrow
    have hmem : m.getD row [] ∈ m := by
      rw [List.getD_eq_getElem _ _ hrow]
      exact List.getElem_mem hrow
    have hlen : (m.getD row []).length = m.length := hsq _ hmem
    rw [List.length_flatMap]
    have hmapeq : (List.map (List.length ∘ fun col => if cell m row col then [f row col] else [])
        (List.range m.length))
        = (List.range (m.getD row []).length).map
            (fun i => ((if (m.getD row []).getD i false then 1 else 0) : ℕ)) := by
      rw [hlen]
      apply List.map_congr_left
      intro i _
      by_cases h : cell m row i <;> simp [h, cell] at * <;> simp [h]
    rw [hmapeq, countP_range_getD]
  have houter : (List.map (List.length ∘ fun row => (List.range m.length).flatMap
      fun col => if cell m row col then [f row col] else []) (List.range m.length)).sum
      = ((List.range m.length).map (fun row => (m.getD row []).countP (fun b => b))).sum := by
    apply congrArg
    apply List.map_congr_left
    intro row hrow
    rw [List.mem_range] at hrow
    exact hinner row hrow
  rw [houter]
  have hs := sum_map_range_getD (fun r => r.countP (fun b => b)) ([] : List Bool) m
  rw [hs]
  rfl

lemma mem_gridEmit_iff (m : QRMatrix) (f : ℕ → ℕ → Prim) (pr : Prim) :
    pr ∈ gridEmit m f ↔ ∃ row col, row < m.length ∧ col < m.length ∧
      cell m row col = true ∧ pr = f row col := by
  unfold gridEmit
  simp only [List.mem_flatMap, List.mem_range]
  constructor
  · rintro ⟨row, hrow, col, hcol, hmem⟩
    by_cases h : cell m row col
    · simp [h] at hmem
      exact ⟨row, col, hrow, hcol, h, hmem⟩
    · simp [h] at hmem
  · rintro ⟨row, col, hrow, hcol, hc, rfl⟩
    exact ⟨row, hrow, col, hcol, by simp [hc]⟩

/- ### Helper lemmas: `str.strip` -/

lemma dropWhile_head_false {α : Type} (p : α → Bool) :
    ∀ (l : List α) (c : α) (t : List α), l.dropWhile p = c :: t → p c = false := by
  intro l
  induction l with
  | nil => intro c t h; simp at h
  | cons a l ih =>
    intro c t h
    rw [List.dropWhile_cons] at h
    by_cases hp : p a = true
    · rw [if_pos hp] at h
      exact ih c t h
    · rw [if_neg hp] at h
      injection h with h1 _
      rw [← h1]
      exact Bool.not_eq_true _ |>.mp hp

lemma rev_decomp {α : Type} (p : α → Bool) (d : List α) :
    d = (d.reverse.dropWhile p).reverse ++ (d.reverse.takeWhile p).reverse := by
  have h1 : d.reverse = d.reverse.takeWhile p ++ d.reverse.dropWhile p :=
    (List.takeWhile_append_dropWhile p d.reverse).symm
  have h2 : d = (d.reverse.takeWhile p ++ d.reverse.dropWhile p).reverse := by
    rw [← h1, List.reverse_reverse]
  conv_lhs => rw [h2, List.reverse_append]

lemma strip_decomp (l : List Char) :
    l = l.takeWhile isPySpace ++ pyStrip l
          ++ ((l.dropWhile isPySpace).reverse.takeWhile isPySpace).reverse := by
  conv_lhs => rw [← List.takeWhile_append_dropWhile isPySpace l,
    rev_decomp isPySpace (l.dropWhile isPySpace)]
  rw [List.append_assoc]
  rfl

lemma pyStrip_head_not_space (l : List Char) (c : Char) (t : List Char)
    (h : pyStrip l = c :: t) : isPySpace c = false := by
  have hd := rev_decomp isPySpace (l.dropWhile isPySpace)
  rw [show ((l.dropWhile isPySpace).reverse.dropWhile isPySpace).reverse = pyStrip l from rfl,
    h] at hd
  exact dropWhile_head_false isPySpace l c _ (by simpa using hd)

lemma pyStrip_last_not_space (l : List Char) (c : Char) (t : List Char)
    (h : (pyStrip l).reverse = c :: t) : isPySpace c = false := by
  unfold pyStrip at h
  rw [List.reverse_reverse] at h
  exact dropWhile_head_false isPySpace _ c t h

/- ### Additional helper lemmas for plan counting -/

lemma countP_gridEmit_zero (m : QRMatrix) (f : ℕ → ℕ → Prim)
    (h : ∀ r c, (f r c).isRect = false) :
    (gridEmit m f).countP (fun pr => pr.isRect) = 0 := by
  rw [List.countP_eq_zero]
  intro a ha
  obtain ⟨r, c, _, _, _, rfl⟩ := (mem_gridEmit_iff m f a).mp ha
  simp [h]

lemma elegant_rect_count (m : QRMatrix) :
    (svgElegantPlan m).countP (fun pr => pr.isRect) = 4 := by
  show (bgRect :: (svgDataCircles m ++ (svgCoverRects m ++ svgElegantRings m))).countP
    (fun pr => pr.isRect) = 4
  rw [List.countP_cons, List.countP_append, List.countP_append]
  have h1 : (svgDataCircles m).countP (fun pr => pr.isRect) = 0 :=
    countP_gridEmit_zero m _ (fun _ _ => rfl)
  have h2 : (svgCoverRects m).countP (fun pr => pr.isRect) = 3 := rfl
  have h3 : (svgElegantRings m).countP (fun pr => pr.isRect) = 0 := rfl
  rw [h1, h2, h3]
  simp [bgRect, Prim.isRect]

lemma M21_length : M21.length = 21 := by decide

lemma finder_cell_circle_mem :
    Prim.circle (4500/29) (4500/29) (420/29) "black" ∈ svgDataCircles M21 := by
  have h : Prim.circle (4500/29) (4500/29) (420/29) "black" ∈ gridEmit M21
      (fun row col =>
        Prim.circle (svgOffset M21.length + col * msize M21.length + msize M21.length / 2)
          (svgOffset M21.length + row * msize M21.length + msize M21.length / 2)
          (svgDotRadius (msize M21.length)) "black") := by
    apply (mem_gridEmit_iff _ _ _).mpr
    refine ⟨0, 0, by decide, by decide, by decide, ?_⟩
    rw [M21_length]
    norm_num [svgOffset, msize, svgDotRadius]
  exact h

/- ### Claims C1-C4 -/

/-- C1 counterexample: in the raster path `replace_position_markers`, run on the
    production geometry (1160-pixel native image, `box_size = 40`, `border = 4`),
    the first covering rectangle spans only `440 - 160 = 280 = 7 * 40` units per
    side, strictly less than the `8 * 40 = 320` the claim requires. -/
theorem C1_counterexample :
    (replace_position_markers 1160 40 4).head? =
      some (PilOp.rectangle 160 160 440 440 "white")
    ∧ ((440 : ℚ) - 160 < 8 * 40) := by
  refine ⟨?_, by norm_num⟩
  norm_num [replace_position_markers, rpmOffset]

/-- C1 (amended): the vector path (`create_svg_elegant`) sizes each covering
    rectangle to exactly `8 x 8` modules, but the raster path
    (`replace_position_markers`) sizes each covering rectangle to only
    `7 * box_size` per side (a 7x7-module block). -/
theorem C1_amended (img_size box_size border : ℤ) (m : QRMatrix) :
    (replace_position_markers img_size box_size border).take 3 =
      [ PilOp.rectangle (rpmOffset box_size border) (rpmOffset box_size border)
          (rpmOffset box_size border + 7 * box_size)
          (rpmOffset box_size border + 7 * box_size) "white",
        PilOp.rectangle (rpmTopRightX img_size box_size border) (rpmOffset box_size border)
          (rpmTopRightX img_size box_size border + 7 * box_size)
          (rpmOffset box_size border + 7 * box_size) "white",
        PilOp.rectangle (rpmOffset box_size border) (rpmTopRightX img_size box_size border)
          (rpmOffset box_size border + 7 * box_size)
          (rpmTopRightX img_size box_size border + 7 * box_size) "white" ]
    ∧ svgCoverRects m =
      [ Prim.rect (svgOffset m.length) (svgOffset m.length)
          (8 * msize m.length) (8 * msize m.length) "white",
        Prim.rect (svgOffset m.length + ((m.length : ℚ) - 8) * msize m.length)
          (svgOffset m.length) (8 * msize m.length) (8 * msize m.length) "white",
        Prim.rect (svgOffset m.length)
          (svgOffset m.length + ((m.length : ℚ) - 8) * msize m.length)
          (8 * msize m.length) (8 * msize m.length) "white" ] := by
  constructor
  · simp [replace_position_markers]
  · rfl

/-- C2 counterexample: for the 21x21 matrix `M21` whose only true cell `(0,0)`
    lies inside the top-left finder region, the elegant SVG plan nevertheless
    contains a data circle for that cell, and contains 4 rectangles (one
    background plus three covering rectangles), not just one. -/
theorem C2_counterexample :
    Prim.circle (4500/29) (4500/29) (420/29) "black" ∈ svgElegantPlan M21
    ∧ (svgElegantPlan M21).countP (fun pr => pr.isRect) = 4 := by
  refine ⟨?_, elegant_rect_count M21⟩
  exact List.mem_cons_of_mem _ (List.mem_append_left _ finder_cell_circle_mem)

/-- C2 (amended): the elegant SVG plan contains one background rectangle, then
    one data circle per true cell of the matrix (including cells inside the
    finder regions), then three white covering rectangles, then nine
    finder-ring circles, and nothing else; its total length is
    `13 + trueCount m`. -/
theorem C2_amended (m : QRMatrix) (hsq : ∀ r ∈ m, r.length = m.length) :
    svgElegantPlan m
      = bgRect :: (svgDataCircles m ++ (svgCoverRects m ++ svgElegantRings m))
    ∧ (svgDataCircles m).length = trueCount m
    ∧ (svgCoverRects m).length = 3
    ∧ (svgElegantRings m).length = 9
    ∧ (svgElegantPlan m).length = 13 + trueCount m := by
  have hdata : (svgDataCircles m).length = trueCount m := gridEmit_length m _ hsq
  have hc : (svgCoverRects m).length = 3 := rfl
  have hr : (svgElegantRings m).length = 9 := rfl
  refine ⟨rfl, hdata, hc, hr, ?_⟩
  show (bgRect :: (svgDataCircles m ++ (svgCoverRects m ++ svgElegantRings m))).length
    = 13 + trueCount m
  rw [List.length_cons, List.length_append, List.length_append, hdata, hc, hr]
  omega

/-- C2 witness. -/
theorem C2_witness :
    (∀ r ∈ M21e, r.length = M21e.length)
    ∧ (svgElegantPlan M21e).length = 13 + trueCount M21e :=
  ⟨by decide, (C2_amended M21e (by decide)).2.2.2.2⟩

/-- C3 counterexample: for the 1x1 matrix (side length 1 < 21) the SVG render
    paths raise no error: they produce complete plans (14 primitives for the
    elegant style, 2 for the classic style). -/
theorem C3_counterexample :
    (svgElegantPlan M1).length = 14 ∧ (svgClassicPlan M1).length = 2 := by
  exact ⟨by decide, by decide⟩

/-- C3 (amended): the render operations perform no geometry validation at all:
    there is no `InvalidGeometry` failure, and for every matrix (of any size,
    including sizes below 21) both SVG plan builders produce output beginning
    with the background rectangle. The module size (`box_size = 40`) and
    quiet-zone width (`border = 4`) are hard-coded constants, so no
    configuration validation exists either. -/
theorem C3_amended (m : QRMatrix) :
    (svgElegantPlan m).head? = some bgRect
    ∧ (svgClassicPlan m).head? = some bgRect := by
  exact ⟨rfl, rfl⟩

/-- C4 counterexample: at the same module pitch 40, the raster drawer emits a
    data circle of radius `17 = 0.85 * (40 / 2)` while the vector path uses
    radius `16.8 = 0.84 * (40 / 2)`: the two fill ratios are not the same. -/
theorem C4_counterexample :
    drawrect "black" 0 0 40 40 true = [PilOp.ellipse 3 3 37 37 "black"]
    ∧ svgDotRadius 40 = 84 / 100 * (40 / 2)
    ∧ ((17 : ℚ) ≠ 84 / 100 * (40 / 2)) := by
  refine ⟨?_, by norm_num [svgDotRadius], by norm_num⟩
  simp [drawrect]
  norm_num

/-- C4 (amended): both backends center the data circle on the module center,
    but the raster backend uses fill ratio `0.85` (radius
    `0.85 * (pitch / 2)`) while the vector backend uses fill ratio `0.84`
    (radius `0.84 * (pitch / 2)`). -/
theorem C4_amended (paint : String) (x y pitch : ℚ) :
    drawrect paint x y (x + pitch) (y + pitch) true =
      [ PilOp.ellipse (x + pitch / 2 - 85 / 100 * (pitch / 2))
          (y + pitch / 2 - 85 / 100 * (pitch / 2))
          (x + pitch / 2 + 85 / 100 * (pitch / 2))
          (y + pitch / 2 + 85 / 100 * (pitch / 2)) paint ]
    ∧ svgDotRadius pitch = 84 / 100 * (pitch / 2) := by
  constructor
  · simp only [drawrect, Bool.not_true, Bool.false_eq_true, if_false,
      List.cons.injEq, PilOp.ellipse.injEq, and_true]
    refine ⟨by ring, by ring, by ring, by ring⟩
  · unfold svgDotRadius
    ring

/- ### Claims C5-C6 -/

/-- C5: in circular style each of the three finder regions gets exactly three
    concentric filled circles centered at (corner offset + 3.5 modules in each
    axis), with radii `3.5 * pitch` (foreground), `2.5 * pitch` (background),
    `1.5 * pitch` (foreground), drawn in exactly that order; the nine ring
    circles are the last nine primitives of the elegant SVG plan, and the
    raster marker helper `draw_circular_position_marker` draws the same three
    rings as ellipses in the same order. -/
theorem C5_finder_rings (m : QRMatrix) (x y module_size : ℚ) :
    (svgElegantPlan m).drop ((svgElegantPlan m).length - 9) = svgElegantRings m
    ∧ svgElegantRings m =
      [ Prim.circle (svgOffset m.length + 3.5 * msize m.length)
          (svgOffset m.length + 3.5 * msize m.length) (3.5 * msize m.length) "black",
        Prim.circle (svgOffset m.length + 3.5 * msize m.length)
          (svgOffset m.length + 3.5 * msize m.length) (2.5 * msize m.length) "white",
        Prim.circle (svgOffset m.length + 3.5 * msize m.length)
          (svgOffset m.length + 3.5 * msize m.length) (1.5 * msize m.length) "black",
        Prim.circle (svgOffset m.length + ((m.length : ℚ) - 7) * msize m.length
            + 3.5 * msize m.length)
          (svgOffset m.length + 3.5 * msize m.length) (3.5 * msize m.length) "black",
        Prim.circle (svgOffset m.length + ((m.length : ℚ) - 7) * msize m.length
            + 3.5 * msize m.length)
          (svgOffset m.length + 3.5 * msize m.length) (2.5 * msize m.length) "white",
        Prim.circle (svgOffset m.length + ((m.length : ℚ) - 7) * msize m.length
            + 3.5 * msize m.length)
          (svgOffset m.length + 3.5 * msize m.length) (1.5 * msize m.length) "black",
        Prim.circle (svgOffset m.length + 3.5 * msize m.length)
          (svgOffset m.length + ((m.length : ℚ) - 7) * msize m.length
            + 3.5 * msize m.length) (3.5 * msize m.length) "black",
        Prim.circle (svgOffset m.length + 3.5 * msize m.length)
          (svgOffset m.length + ((m.length : ℚ) - 7) * msize m.length
            + 3.5 * msize m.length) (2.5 * msize m.length) "white",
        Prim.circle (svgOffset m.length + 3.5 * msize m.length)
          (svgOffset m.length + ((m.length : ℚ) - 7) * msize m.length
            + 3.5 * msize m.length) (1.5 * msize m.length) "black" ]
    ∧ draw_circular_position_marker x y module_size =
      [ PilOp.ellipse (x + 3.5 * module_size - 3.5 * module_size)
          (y + 3.5 * module_size - 3.5 * module_size)
          (x + 3.5 * module_size + 3.5 * module_size)
          (y + 3.5 * module_size + 3.5 * module_size) "black",
        PilOp.ellipse (x + 3.5 * module_size - 2.5 * module_size)
          (y + 3.5 * module_size - 2.5 * module_size)
          (x + 3.5 * module_size + 2.5 * module_size)
          (y + 3.5 * module_size + 2.5 * module_size) "white",
        PilOp.ellipse (x + 3.5 * module_size - 1.5 * module_size)
          (y + 3.5 * module_size - 1.5 * module_size)
          (x + 3.5 * module_size + 1.5 * module_size)
          (y + 3.5 * module_size + 1.5 * module_size) "black" ] := by
  refine ⟨?_, rfl, rfl⟩
  have hplan : svgElegantPlan m
      = (bgRect :: (svgDataCircles m ++ svgCoverRects m)) ++ svgElegantRings m := by
    show bgRect :: (svgDataCircles m ++ (svgCoverRects m ++ svgElegantRings m)) = _
    rw [List.cons_append, List.append_assoc]
  rw [hplan, List.length_append]
  have hr : (svgElegantRings m).length = 9 := rfl
  rw [hr, Nat.add_sub_cancel]
  exact List.drop_left _ _

/-- C6: the classic SVG plan is the background rectangle followed by exactly
    one `pitch x pitch` black rectangle per true cell, positioned at
    `(offset + col * pitch, offset + row * pitch)`; it contains no circle
    primitives. -/
theorem C6_classic_plan (m : QRMatrix) (hsq : ∀ r ∈ m, r.length = m.length) :
    (svgClassicPlan m).length = 1 + trueCount m
    ∧ (∀ pr ∈ svgClassicPlan m, pr.isCircle = false)
    ∧ (∀ row col, row < m.length → col < m.length → cell m row col = true →
        Prim.rect (svgOffset m.length + col * msize m.length)
          (svgOffset m.length + row * msize m.length)
          (msize m.length) (msize m.length) "black" ∈ svgClassicPlan m) := by
  have hshow : svgClassicPlan m = bgRect :: gridEmit m
      (fun row col =>
        Prim.rect (svgOffset m.length + col * msize m.length)
          (svgOffset m.length + row * msize m.length)
          (msize m.length) (msize m.length) "black") := rfl
  refine ⟨?_, ?_, ?_⟩
  · rw [hshow, List.length_cons, gridEmit_length m _ hsq]
    omega
  · intro pr hpr
    rw [hshow, List.mem_cons] at hpr
    rcases hpr with h | h
    · rw [h]; rfl
    · obtain ⟨r, c, _, _, _, rfl⟩ := (mem_gridEmit_iff m _ pr).mp h
      rfl
  · intro row col hrow hcol hc
    rw [hshow]
    apply List.mem_cons_of_mem
    exact (mem_gridEmit_iff m _ _).mpr ⟨row, col, hrow, hcol, hc, rfl⟩

/-- C6 witness. -/
theorem C6_witness :
    (∀ r ∈ M21, r.length = M21.length)
    ∧ (svgClassicPlan M21).length = 1 + trueCount M21 :=
  ⟨by decide, (C6_classic_plan M21 (by decide)).1⟩

/- ### Claim C7 -/

/-- The bounding box of a primitive lies inside the closed square
    `[lo, hi] x [lo, hi]` (the central module area). -/
def inCore (pr : Prim) (lo hi : ℚ) : Prop :=
  lo ≤ pr.bbox.1 ∧ lo ≤ pr.bbox.2.1 ∧ pr.bbox.2.2.1 ≤ hi ∧ pr.bbox.2.2.2 ≤ hi

/-- C7 counterexample: for the 1x1 matrix, the outer top-left finder ring is a
    black (non-background) circle whose bounding box extends far beyond the
    central module area `[offset, offset + size * pitch]` (its right edge is
    `11000/9`, while the central area ends at `5000/9`). -/
theorem C7_counterexample :
    Prim.circle (2500/3) (2500/3) (3500/9) "black" ∈ svgElegantPlan M1
    ∧ Prim.circle (2500/3) (2500/3) (3500/9) "black" ∉ bgRect :: svgCoverRects M1
    ∧ ¬ inCore (Prim.circle (2500/3) (2500/3) (3500/9) "black")
        (svgOffset M1.length) (svgOffset M1.length + (M1.length : ℚ) * msize M1.length) := by
  refine ⟨?_, ?_, ?_⟩
  · show _ ∈ bgRect :: (svgDataCircles M1 ++ (svgCoverRects M1 ++ svgElegantRings M1))
    apply List.mem_cons_of_mem
    apply List.mem_append_right
    apply List.mem_append_right
    have h1 : svgOffset M1.length + 3.5 * msize M1.length = 2500/3 := by
      norm_num [svgOffset, msize, M1]
    have h2 : (3.5 : ℚ) * msize M1.length = 3500/9 := by
      norm_num [msize, M1]
    show _ ∈ ringTriple (svgOffset M1.length + 3.5 * msize M1.length)
        (svgOffset M1.length + 3.5 * msize M1.length) (msize M1.length) ++ _
    apply List.mem_append_left
    rw [ringTriple, h1, h2]
    exact List.mem_cons_self _ _
  · intro h
    rcases List.mem_cons.mp h with h | h
    · simp [bgRect] at h
    · have hcov : svgCoverRects M1 =
        [ Prim.rect (svgOffset 1) (svgOffset 1) (8 * msize 1) (8 * msize 1) "white",
          Prim.rect (svgOffset 1 + ((1 : ℚ) - 8) * msize 1) (svgOffset 1)
            (8 * msize 1) (8 * msize 1) "white",
          Prim.rect (svgOffset 1) (svgOffset 1 + ((1 : ℚ) - 8) * msize 1)
            (8 * msize 1) (8 * msize 1) "white" ] := by norm_num [svgCoverRects, M1]
      rw [hcov] at h
      simp at h
  · intro hc
    have h3 := hc.2.2.1
    rw [show (Prim.circle (2500/3) (2500/3) (3500/9) "black").bbox.2.2.1
        = 2500/3 + 3500/9 from rfl] at h3
    have : svgOffset M1.length + (M1.length : ℚ) * msize M1.length = 5000/9 := by
      norm_num [svgOffset, msize, M1]
    rw [this] at h3
    norm_num at h3

/-- C7 (amended): for every matrix of size at least 7 (in particular every
    valid QR matrix, whose size is at least 21), every primitive of the
    elegant SVG plan other than the background fill and the three
    background-colored covering rectangles, and every primitive of the classic
    SVG plan other than the background fill, has a bounding box lying entirely
    inside the central `size x size` module area
    `[offset, offset + size * pitch]^2`, so none intersects the quiet-zone
    border. -/
theorem C7_quiet_zone (m : QRMatrix) (h7 : 7 ≤ m.length) :
    (∀ pr ∈ svgElegantPlan m, pr ∉ bgRect :: svgCoverRects m →
      inCore pr (svgOffset m.length)
        (svgOffset m.length + (m.length : ℚ) * msize m.length))
    ∧ (∀ pr ∈ svgClassicPlan m, pr ≠ bgRect →
      inCore pr (svgOffset m.length)
        (svgOffset m.length + (m.length : ℚ) * msize m.length)) := by
  have hp : 0 < msize m.length := by
    unfold msize
    positivity
  have hs : (7 : ℚ) ≤ (m.length : ℚ) := by exact_mod_cast h7
  have hsp : 7 * msize m.length ≤ (m.length : ℚ) * msize m.length :=
    mul_le_mul_of_nonneg_right hs hp.le
  have key : 0 ≤ ((m.length : ℚ) - 7) * msize m.length :=
    mul_nonneg (by linarith) hp.le
  have key2 : ((m.length : ℚ) - 7) * msize m.length
      = (m.length : ℚ) * msize m.length - 7 * msize m.length := by ring
  have hdata : ∀ row col : ℕ, row < m.length → col < m.length →
      inCore (Prim.circle
        (svgOffset m.length + col * msize m.length + msize m.length / 2)
        (svgOffset m.length + row * msize m.length + msize m.length / 2)
        (svgDotRadius (msize m.length)) "black")
      (svgOffset m.length)
      (svgOffset m.length + (m.length : ℚ) * msize m.length) := by
    intro row col hrow hcol
    have hc1 : (col : ℚ) + 1 ≤ (m.length : ℚ) := by exact_mod_cast hcol
    have hr1 : (row : ℚ) + 1 ≤ (m.length : ℚ) := by exact_mod_cast hrow
    have hc0 : 0 ≤ (col : ℚ) * msize m.length :=
      mul_nonneg (by positivity) hp.le
    have hr0 : 0 ≤ (row : ℚ) * msize m.length :=
      mul_nonneg (by positivity) hp.le
    have hcp : (col : ℚ) * msize m.length + msize m.length
        ≤ (m.length : ℚ) * msize m.length := by
      have := mul_le_mul_of_nonneg_right hc1 hp.le
      rw [add_mul, one_mul] at this
      exact this
    have hrp : (row : ℚ) * msize m.length + msize m.length
        ≤ (m.length : ℚ) * msize m.length := by
      have := mul_le_mul_of_nonneg_right hr1 hp.le
      rw [add_mul, one_mul] at this
      exact this
    simp only [inCore, Prim.bbox, svgDotRadius]
    refine ⟨by linarith, by linarith, by linarith, by linarith⟩
  constructor
  · intro pr hpr hnot
    simp only [svgElegantPlan, List.mem_cons, List.mem_append] at hpr
    rcases hpr with rfl | hpr
    · exact absurd (List.mem_cons_self _ _) hnot
    rcases hpr with hpr | hpr
    · obtain ⟨row, col, hrow, hcol, _, rfl⟩ := (mem_gridEmit_iff m _ pr).mp hpr
      exact hdata row col hrow hcol
    rcases hpr with hpr | hpr
    · exact absurd (List.mem_cons_of_mem _ hpr) hnot
    · simp only [svgElegantRings, ringTriple, List.mem_append, List.mem_cons,
        List.not_mem_nil, or_false] at hpr
      rcases hpr with (h9 | h9) | h9 <;> rcases h9 with rfl | rfl | rfl <;>
        · simp only [inCore, Prim.bbox]
          refine ⟨by linarith, by linarith, by linarith, by linarith⟩
  · intro pr hpr hnot
    simp only [svgClassicPlan, List.mem_cons] at hpr
    rcases hpr with rfl | hpr
    · exact absurd rfl hnot
    · obtain ⟨row, col, hrow, hcol, _, rfl⟩ := (mem_gridEmit_iff m _ pr).mp hpr
      have hc1 : (col : ℚ) + 1 ≤ (m.length : ℚ) := by exact_mod_cast hcol
      have hr1 : (row : ℚ) + 1 ≤ (m.length : ℚ) := by exact_mod_cast hrow
      have hc0 : 0 ≤ (col : ℚ) * msize m.length :=
        mul_nonneg (by positivity) hp.le
      have hr0 : 0 ≤ (row : ℚ) * msize m.length :=
        mul_nonneg (by positivity) hp.le
      have hcp : (col : ℚ) * msize m.length + msize m.length
          ≤ (m.length : ℚ) * msize m.length := by
        have := mul_le_mul_of_nonneg_right hc1 hp.le
        rw [add_mul, one_mul] at this
        exact this
      have hrp : (row : ℚ) * msize m.length + msize m.length
          ≤ (m.length : ℚ) * msize m.length := by
        have := mul_le_mul_of_nonneg_right hr1 hp.le
        rw [add_mul, one_mul] at this
        exact this
      simp only [inCore, Prim.bbox]
      refine ⟨by linarith, by linarith, by linarith, by linarith⟩

/-- C7 witness. -/
theorem C7_witness :
    7 ≤ M7.length
    ∧ (∀ pr ∈ svgElegantPlan M7, pr ∉ bgRect :: svgCoverRects M7 →
      inCore pr (svgOffset M7.length)
        (svgOffset M7.length + (M7.length : ℚ) * msize M7.length)) :=
  ⟨by decide, (C7_quiet_zone M7 (by decide)).1⟩

/- ### Claims C8-C10 -/

/-- C8: for every matrix of size between 21 and a large bound, both raster
    pipelines produce a 1000 x 1000 pixel image (the native canvas is resized
    to the fixed output size), and both SVG documents declare
    `width = height = viewBox = 1000`, independent of the matrix side
    length. -/
theorem C8_output_size (m : QRMatrix) (h1 : 21 ≤ m.length)
    (h2 : m.length ≤ 1000000) :
    create_qr_code_elegant_image m.length = ⟨1000, 1000⟩
    ∧ create_qr_code_classic_image m.length = ⟨1000, 1000⟩
    ∧ (svgElegantDoc m).width = 1000 ∧ (svgElegantDoc m).height = 1000
    ∧ (svgElegantDoc m).viewBoxW = 1000 ∧ (svgElegantDoc m).viewBoxH = 1000
    ∧ (svgClassicDoc m).width = 1000 ∧ (svgClassicDoc m).height = 1000
    ∧ (svgClassicDoc m).viewBoxW = 1000 ∧ (svgClassicDoc m).viewBoxH = 1000 :=
  ⟨rfl, rfl, rfl, rfl, rfl, rfl, rfl, rfl, rfl, rfl⟩

/-- C8 witness. -/
theorem C8_witness :
    21 ≤ M21e.length ∧ M21e.length ≤ 1000000
    ∧ create_qr_code_elegant_image M21e.length = ⟨1000, 1000⟩ :=
  ⟨by decide, by decide, (C8_output_size M21e (by decide) (by decide)).1⟩

/-- C9: rendering is deterministic: the rendering pipeline is a pure function
    of the matrix and the input text, so rendering equal inputs yields
    identical plans, identical raster dimensions, identical raster marker
    operations, and identical normalized text. -/
theorem C9_deterministic (m1 m2 : QRMatrix) (u1 u2 : String)
    (hm : m1 = m2) (hu : u1 = u2) :
    svgElegantPlan m1 = svgElegantPlan m2
    ∧ svgClassicPlan m1 = svgClassicPlan m2
    ∧ svgElegantDoc m1 = svgElegantDoc m2
    ∧ svgClassicDoc m1 = svgClassicDoc m2
    ∧ create_qr_code_elegant_image m1.length = create_qr_code_elegant_image m2.length
    ∧ create_qr_code_classic_image m1.length = create_qr_code_classic_image m2.length
    ∧ normalize_url u1 = normalize_url u2 := by
  subst hm; subst hu
  exact ⟨rfl, rfl, rfl, rfl, rfl, rfl, rfl⟩

/-- C9 witness. -/
theorem C9_witness :
    M21 = M21 ∧ "24.hu" = "24.hu"
    ∧ svgElegantPlan M21 = svgElegantPlan M21 :=
  ⟨rfl, rfl, (C9_deterministic M21 M21 "24.hu" "24.hu" rfl rfl).1⟩

/-- C10: `normalize_url` returns its input with leading and trailing
    whitespace removed and makes no other change: the result is an infix of
    the input (so no scheme such as `https://` is ever prepended), the
    removed prefix and suffix consist only of whitespace, the result itself
    neither starts nor ends with whitespace, and all four output paths encode
    exactly this normalized text. -/
theorem C10_normalize (u : String) :
    (∃ pre suf, u.data = pre ++ (normalize_url u).data ++ suf
      ∧ (∀ c ∈ pre, isPySpace c = true) ∧ (∀ c ∈ suf, isPySpace c = true))
    ∧ (∀ c t, (normalize_url u).data = c :: t → isPySpace c = false)
    ∧ (∀ c t, (normalize_url u).data.reverse = c :: t → isPySpace c = false)
    ∧ elegantPngText u = normalize_url u
    ∧ classicPngText u = normalize_url u
    ∧ elegantSvgText u = normalize_url u
    ∧ classicSvgText u = normalize_url u := by
  refine ⟨⟨u.data.takeWhile isPySpace,
      ((u.data.dropWhile isPySpace).reverse.takeWhile isPySpace).reverse,
      ?_, ?_, ?_⟩, ?_, ?_, rfl, rfl, rfl, rfl⟩
  · exact strip_decomp u.data
  · intro c hc
    exact List.mem_takeWhile_imp hc
  · intro c hc
    rw [List.mem_reverse] at hc
    exact List.mem_takeWhile_imp hc
  · intro c t h
    exact pyStrip_head_not_space u.data c t h
  · intro c t h
    exact pyStrip_last_not_space u.data c t h
